import Mathlib

/-!
# Verification of the robust-axios-client resilience engine

Shallow embedding of the resilience layer of `robust-axios-client`:
the circuit breaker (`src/utils/circuit-breaker.ts`), the token-bucket
rate limiter (`src/utils/rate-limiter.ts`), the LRU retry-context cache
(`src/utils/lru-cache.ts`), and the retry / classification / request
logic of `src/core/RobustAxiosClient.ts` (with the legacy
`src/robust-axios.ts` key generation embedded separately).

Conventions of the embedding:
* JavaScript `number` timestamps and delays are modelled as `Nat`
  (milliseconds); the rate limiter's fractional token arithmetic is
  modelled over `ℚ` (exact, mirroring the source expressions).
* Stateful classes become structures, and their methods become pure
  functions returning the updated structure (state passing).
* A JS function that may `throw` inside a guarded call site is modelled
  as returning `Option` (`none` = the call threw).
* JS truthiness tests on strings (`if (s)`) are modelled by explicit
  comparison with the empty string; absent (`undefined`) values are
  modelled with `Option`.
-/

namespace RobustAxios

/-! ## Circuit breaker (`src/utils/circuit-breaker.ts`) -/

/-- `CircuitBreakerState` from `src/types.ts`: `'CLOSED' | 'OPEN' | 'HALF_OPEN'`. -/
inductive CircuitBreakerState where
  | CLOSED
  | OPEN
  | HALF_OPEN
deriving DecidableEq, Repr

/-- The `circuitBreaker` sub-configuration of `RetryConfig`. -/
structure CircuitBreakerConfig where
  failureThreshold : Nat
  resetTimeout : Nat
  halfOpenMaxRequests : Nat
deriving DecidableEq, Repr

/-- The mutable fields of the `CircuitBreaker` class, plus its (readonly)
configuration.  The `onStateChange` observer callback only reports
transitions and never influences the breaker, so it is omitted. -/
structure CircuitBreaker where
  config : CircuitBreakerConfig
  state : CircuitBreakerState
  failures : Nat
  lastStateChange : Nat
  requestCount : Nat
  successCount : Nat
deriving DecidableEq, Repr

namespace CircuitBreaker

/-- The constructor: fields start at `state = 'CLOSED'`, zero counters,
`lastStateChange = Date.now()` (passed as `now`). -/
def create (config : CircuitBreakerConfig) (now : Nat) : CircuitBreaker :=
  { config := config
    state := .CLOSED
    failures := 0
    lastStateChange := now
    requestCount := 0
    successCount := 0 }

/-- `transitionTo(newState)`: sets the state and stamps `lastStateChange`
with the current time. -/
def transitionTo (cb : CircuitBreaker) (newState : CircuitBreakerState)
    (now : Nat) : CircuitBreaker :=
  { cb with state := newState, lastStateChange := now }

/-- `beforeRequest()`: CLOSED allows; OPEN allows (moving to HALF_OPEN with
reset trial counters) once `resetTimeout` has elapsed since the last
transition; HALF_OPEN allows up to `halfOpenMaxRequests` trials. -/
def beforeRequest (cb : CircuitBreaker) (now : Nat) : Bool × CircuitBreaker :=
  match cb.state with
  | .CLOSED => (true, cb)
  | .OPEN =>
      if now - cb.lastStateChange ≥ cb.config.resetTimeout then
        (true, { cb.transitionTo .HALF_OPEN now with requestCount := 0, successCount := 0 })
      else
        (false, cb)
  | .HALF_OPEN =>
      if cb.requestCount < cb.config.halfOpenMaxRequests then
        (true, { cb with requestCount := cb.requestCount + 1 })
      else
        (false, cb)

/-- `recordSuccess()`: while HALF_OPEN, counts the success and closes the
circuit once `halfOpenMaxRequests` trials have succeeded; in every state
the consecutive-failure counter is reset to 0. -/
def recordSuccess (cb : CircuitBreaker) (now : Nat) : CircuitBreaker :=
  let cb :=
    if cb.state = .HALF_OPEN then
      let cb := { cb with successCount := cb.successCount + 1 }
      if cb.successCount ≥ cb.config.halfOpenMaxRequests then
        { cb.transitionTo .CLOSED now with requestCount := 0, successCount := 0 }
      else
        cb
    else
      cb
  { cb with failures := 0 }

/-- `recordFailure()`: increments the consecutive-failure counter and opens
the circuit (resetting trial counters) once it reaches
`failureThreshold`. -/
def recordFailure (cb : CircuitBreaker) (now : Nat) : CircuitBreaker :=
  let cb := { cb with failures := cb.failures + 1 }
  if cb.failures ≥ cb.config.failureThreshold then
    { cb.transitionTo .OPEN now with requestCount := 0, successCount := 0 }
  else
    cb

/-- One externally driven event on the breaker, tagged with the event time. -/
inductive Op where
  | before (now : Nat)
  | success (now : Nat)
  | failure (now : Nat)
deriving DecidableEq, Repr

/-- Apply a single event (the allow/deny result of `beforeRequest` is
dropped; only the state evolution matters here). -/
def applyOp (cb : CircuitBreaker) : Op → CircuitBreaker
  | .before now => (cb.beforeRequest now).2
  | .success now => cb.recordSuccess now
  | .failure now => cb.recordFailure now

/-- Apply a sequence of events in order. -/
def applyOps (cb : CircuitBreaker) (ops : List Op) : CircuitBreaker :=
  ops.foldl applyOp cb

end CircuitBreaker

/-! ## Token-bucket rate limiter (`src/utils/rate-limiter.ts`) -/

/-- The fields of `TokenBucketRateLimiter`.  The JS `number` token count
and timestamps are modelled over `ℚ`. -/
structure TokenBucketRateLimiter where
  maxTokens : ℚ
  refillRate : ℚ
  tokens : ℚ
  lastRefill : ℚ
deriving DecidableEq, Repr

namespace TokenBucketRateLimiter

/-- The constructor: `tokens` starts at `maxRequests`,
`refillRate = maxRequests / windowMs`, `lastRefill = Date.now()`
(passed as `now`). -/
def create (maxRequests windowMs : ℚ) (now : ℚ) : TokenBucketRateLimiter :=
  { maxTokens := maxRequests
    refillRate := maxRequests / windowMs
    tokens := maxRequests
    lastRefill := now }

/-- `refill()`: adds `(now - lastRefill) * refillRate` tokens, capped at
`maxTokens`, and stamps `lastRefill`. -/
def refill (b : TokenBucketRateLimiter) (now : ℚ) : TokenBucketRateLimiter :=
  { b with
    tokens := min b.maxTokens (b.tokens + (now - b.lastRefill) * b.refillRate)
    lastRefill := now }

/-- `tryAcquire()`: refill, then consume one token and return `true` when
at least one token is available, otherwise return `false` with the bucket
unchanged (apart from the refill). -/
def tryAcquire (b : TokenBucketRateLimiter) (now : ℚ) :
    Bool × TokenBucketRateLimiter :=
  let b := b.refill now
  if b.tokens ≥ 1 then
    (true, { b with tokens := b.tokens - 1 })
  else
    (false, b)

/-- Run `tryAcquire` once per listed call time, collecting the results. -/
def tryAcquireSeq (b : TokenBucketRateLimiter) : List ℚ → List Bool × TokenBucketRateLimiter
  | [] => ([], b)
  | now :: rest =>
      let (ok, b) := b.tryAcquire now
      let (oks, b) := b.tryAcquireSeq rest
      (ok :: oks, b)

end TokenBucketRateLimiter

/-! ## LRU cache (`src/utils/lru-cache.ts`)

The source keeps a hash map of values plus a doubly linked list of keys
ordered by recency (head = most recently used, tail = least recently
used).  The embedding collapses the two synchronized structures into a
single association list in recency order (front = most recently used);
each linked-list manipulation of the source becomes the corresponding
reordering of the list. -/

/-- The `LRUCache<K, V>` class: clamped capacity plus the key/value
entries in recency order (front = most recently used). -/
structure LRUCache (K V : Type) where
  capacity : Nat
  entries : List (K × V)
deriving DecidableEq, Repr

namespace LRUCache

variable {K V : Type} [DecidableEq K]

/-- The constructor: `capacity = Math.max(1, capacity)`, empty storage. -/
def create (K V : Type) (capacity : Nat) : LRUCache K V :=
  { capacity := max 1 capacity, entries := [] }

/-- `has(key)` / `cache.has(key)`. -/
def containsKey (c : LRUCache K V) (k : K) : Bool :=
  c.entries.any fun p => p.1 = k

/-- `get(key)`: on a hit, returns the value and moves the entry to the
front (`markAsUsed`); on a miss, leaves the cache unchanged. -/
def get (c : LRUCache K V) (k : K) : Option V × LRUCache K V :=
  match c.entries.find? (fun p => p.1 = k) with
  | some p => (some p.2, { c with entries := p :: c.entries.filter fun q => q.1 ≠ k })
  | none => (none, c)

/-- `set(key, value)`: an existing key is updated and moved to the front;
a new key first evicts the least-recently-used entry (the back of the
list, `evictLRU`) when the cache is at capacity, then is inserted at the
front. -/
def set (c : LRUCache K V) (k : K) (v : V) : LRUCache K V :=
  if c.containsKey k then
    { c with entries := (k, v) :: c.entries.filter fun q => q.1 ≠ k }
  else
    let es := if c.entries.length ≥ c.capacity then c.entries.dropLast else c.entries
    { c with entries := (k, v) :: es }

/-- `delete(key)`: removes the entry when present. -/
def delete (c : LRUCache K V) (k : K) : LRUCache K V :=
  { c with entries := c.entries.filter fun q => q.1 ≠ k }

/-- `clear()`. -/
def clear (c : LRUCache K V) : LRUCache K V :=
  { c with entries := [] }

/-- The `size` getter. -/
def size (c : LRUCache K V) : Nat :=
  c.entries.length

/-- `getLRUKey()`: the key at the tail of the recency list. -/
def getLRUKey (c : LRUCache K V) : Option K :=
  (c.entries.getLast?).map Prod.fst

/-- One public cache operation. -/
inductive Op (K V : Type) where
  | get (k : K)
  | set (k : K) (v : V)
  | delete (k : K)
deriving DecidableEq, Repr

/-- Apply one public operation (the return value of `get` is dropped). -/
def applyOp (c : LRUCache K V) : Op K V → LRUCache K V
  | .get k => (c.get k).2
  | .set k v => c.set k v
  | .delete k => c.delete k

/-- Apply a sequence of public operations in order. -/
def applyOps (c : LRUCache K V) (ops : List (Op K V)) : LRUCache K V :=
  ops.foldl applyOp c

end LRUCache

/-! ## JSON values and `JSON.stringify`

`generateRequestId` and the 422 branch of `handleError` serialize plain
JavaScript values with `JSON.stringify`.  The embedding models those
values with a JSON value type and a direct stringifier (object fields in
the order the source hands them over). -/

/-- A plain JavaScript value as far as the serialized paths observe it. -/
inductive JsonVal where
  | jnull
  | jbool (b : Bool)
  | jnum (n : Int)
  | jstr (s : String)
  | jarr (elems : List JsonVal)
  | jobj (fields : List (String × JsonVal))

/-- The JSON string escaping applied by `JSON.stringify` to the
characters the embedding can produce (quote and backslash). -/
def jsonEscape (s : String) : String :=
  String.mk (s.data.flatMap fun ch =>
    if ch = '"' then ['\\', '"']
    else if ch = '\\' then ['\\', '\\']
    else [ch])

mutual

/-- `JSON.stringify` on a plain value. -/
def jsonStringify : JsonVal → String
  | .jnull => "null"
  | .jbool true => "true"
  | .jbool false => "false"
  | .jnum n => toString n
  | .jstr s => "\"" ++ jsonEscape s ++ "\""
  | .jarr elems => "[" ++ jsonStringifyElems elems ++ "]"
  | .jobj fields => "\x7b" ++ jsonStringifyFields fields ++ "\x7d"

/-- Comma-separated serialization of array elements. -/
def jsonStringifyElems : List JsonVal → String
  | [] => ""
  | [v] => jsonStringify v
  | v :: rest => jsonStringify v ++ "," ++ jsonStringifyElems rest

/-- Comma-separated serialization of object fields. -/
def jsonStringifyFields : List (String × JsonVal) → String
  | [] => ""
  | [(k, v)] => "\"" ++ jsonEscape k ++ "\":" ++ jsonStringify v
  | (k, v) :: rest =>
      "\"" ++ jsonEscape k ++ "\":" ++ jsonStringify v ++ "," ++ jsonStringifyFields rest

end

/-- JavaScript truthiness of a plain value (`false`, `0`, `""` and `null`
are falsy; objects and arrays are always truthy). -/
def JsonVal.truthy : JsonVal → Bool
  | .jnull => false
  | .jbool b => b
  | .jnum n => n ≠ 0
  | .jstr s => s ≠ ""
  | .jarr _ => true
  | .jobj _ => true

/-- `Object.keys(o).sort()` then re-reading the fields in that order:
stable insertion sort of the fields by key (JavaScript's default sort is
lexicographic). -/
def sortFields : List (String × JsonVal) → List (String × JsonVal)
  | [] => []
  | f :: rest => insertField f (sortFields rest)
where
  /-- Insert one field into an already sorted field list. -/
  insertField (f : String × JsonVal) : List (String × JsonVal) → List (String × JsonVal)
    | [] => [f]
    | g :: rest => if f.1 ≤ g.1 then f :: g :: rest else g :: insertField f rest

/-! ## Request configuration and request-identity keys -/

/-- The request body as `generateRequestId` inspects it: a string, a plain
object (serialized with sorted keys), or any other value
(`FormData`, `Blob`, streams, numbers, …) which serializes to the
`[NON_PLAIN_OBJECT_DATA]` placeholder. -/
inductive DataVal where
  | str (s : String)
  | obj (fields : List (String × JsonVal))
  | nonPlain

/-- The parts of an `AxiosRequestConfig` the embedded paths read.
`headers` and `timeout` are carried to show which fields the identity key
does not depend on. -/
structure RequestConfig where
  method : Option String
  baseURL : Option String
  url : Option String
  params : Option (List (String × JsonVal))
  data : Option DataVal
  timeout : Option Nat
  headers : List (String × String)

/-- `s.replace(/\/+$/, '')`: strip trailing slashes. -/
def stripTrailingSlashes (s : String) : String :=
  String.mk ((s.data.reverse.dropWhile fun ch => ch = '/').reverse)

/-- `s.replace(/^\/+/, '')`: strip leading slashes. -/
def stripLeadingSlashes (s : String) : String :=
  String.mk (s.data.dropWhile fun ch => ch = '/')

/-- JavaScript `a || b` on strings (empty string is falsy). -/
def jsOrString (a b : String) : String :=
  if a = "" then b else a

/-- `toUpperCase()` (character-wise uppercase). -/
def jsToUpperCase (s : String) : String :=
  String.mk (s.data.map Char.toUpper)

/-- `config.method?.toUpperCase() || 'UNKNOWN'`. -/
def methodComponent (method : Option String) : String :=
  match method with
  | some m => jsOrString (jsToUpperCase m) "UNKNOWN"
  | none => "UNKNOWN"

/-- `generateRequestId` of `src/core/RobustAxiosClient.ts` (the
deterministic key): method, normalized base URL and path, sorted-key
serialization of the query params, sorted-key (or placeholder)
serialization of the body truncated at 256 characters, joined with
`::`.  The `!config` fallback of the source is unreachable here because
the config is always present in the embedding. -/
def generateRequestId (config : RequestConfig) : String :=
  let method := methodComponent config.method
  let baseUrl := match config.baseURL with
    | some b => stripTrailingSlashes b
    | none => ""
  let path := match config.url with
    | some u => stripLeadingSlashes u
    | none => ""
  let fullUri :=
    if baseUrl ≠ "" ∧ path ≠ "" then baseUrl ++ "/" ++ path
    else if baseUrl ≠ "" then baseUrl
    else if path ≠ "" then path
    else "unknown_uri"
  let paramsString := match config.params with
    | some ps => jsonStringify (.jobj (sortFields ps))
    | none => "[NO_PARAMS]"
  let dataString := match config.data with
    | none => "[NO_DATA]"
    | some (.str s) => if s = "" then "[NO_DATA]" else s
    | some (.obj fields) => jsonStringify (.jobj (sortFields fields))
    | some .nonPlain => "[NON_PLAIN_OBJECT_DATA]"
  let dataString :=
    if dataString.length > 256 then (dataString.take 256) ++ "[TRUNCATED]"
    else dataString
  method ++ "::" ++ fullUri ++ "::" ++ paramsString ++ "::" ++ dataString

/-- One base-36 digit (`0`–`9`, `a`–`z`). -/
def base36Char (d : Nat) : Char :=
  if d < 10 then Char.ofNat (48 + d) else Char.ofNat (87 + d)

/-- Base-36 digits of `n`, least significant first (structural recursion
on a fuel bound, in the style of `Nat.toDigitsCore`; `fuel = n` always
suffices since dividing by 36 reaches 0 within `n` steps). -/
def natToBase36Digits (fuel : Nat) (n : Nat) : List Char :=
  match fuel with
  | 0 => []
  | fuel + 1 =>
      if n = 0 then []
      else base36Char (n % 36) :: natToBase36Digits fuel (n / 36)

/-- `n.toString(36)` for a non-negative integer. -/
def natToBase36 (n : Nat) : String :=
  if n = 0 then "0" else String.mk (natToBase36Digits n n).reverse

/-- Whether a character matches `\w` (`[A-Za-z0-9_]`). -/
def isWordChar (ch : Char) : Bool :=
  ('A' ≤ ch ∧ ch ≤ 'Z') ∨ ('a' ≤ ch ∧ ch ≤ 'z') ∨ ('0' ≤ ch ∧ ch ≤ '9') ∨ ch = '_'

/-- `s.replace(/\W/g, '')`: keep only word characters. -/
def stripNonWord (s : String) : String :=
  String.mk (s.data.filter isWordChar)

/-- `generateRequestId` of the legacy `src/robust-axios.ts` client.  On
top of the configuration it mixes in the current time
(`Date.now().toString(36)`, passed as `nowMs`) and a random component
(`Math.random().toString(36).substring(2, 8)`, passed as `rand`), so the
produced key is not a function of the configuration alone. -/
def legacyGenerateRequestId (config : RequestConfig) (nowMs : Nat) (rand : String) :
    String :=
  let method := methodComponent config.method
  let baseUrl := match config.baseURL with
    | some b => stripTrailingSlashes b
    | none => ""
  let path := match config.url with
    | some u => jsOrString (stripLeadingSlashes u) "unknown"
    | none => "unknown"
  let fullUri := if baseUrl ≠ "" then baseUrl ++ "/" ++ path else path
  let paramsComponent := match config.params with
    | some ps =>
        let paramsString := jsonStringify (.jobj ps)
        "-" ++ toString paramsString.length ++ "-" ++ stripNonWord (paramsString.take 10)
    | none => ""
  let timestamp := natToBase36 nowMs
  method ++ "-" ++ fullUri ++ paramsComponent ++ "-" ++ timestamp ++ rand

/-! ## Error model and classification (`handleError`) -/

/-- A response attached to an `AxiosError`, as far as `handleError` and
the retry logic read it: the status, the `retry-after` header (absent
when the header is missing), and the `errors` / `details` fields of the
response body (absent when the body has no such field). -/
structure ResponseModel where
  status : Nat
  retryAfterHeader : Option String
  dataErrors : Option JsonVal
  dataDetails : Option JsonVal

/-- The parts of an `AxiosError` the embedded paths read.  `response`
absent means a network-level failure. -/
structure AxiosErrorModel where
  message : String
  code : Option String
  response : Option ResponseModel
  configUrl : Option String
  configTimeout : Option Nat

/-- The closed error taxonomy of `src/errors.ts`, one constructor per
exported class (each carries the constructor arguments the classification
paths set; the raw response/cause references are dropped). -/
inductive ClassifiedError where
  | NetworkError (message : String)
  | TimeoutError (message : String)
  | RateLimitError (message : String)
  | ValidationError (message : String)
  | ClientError (message : String) (status : Nat)
  | ServerError (message : String) (status : Nat)
  | HttpError (message : String) (status : Nat)
  | CancellationError (message : String)

/-- An error value flowing through `handleError`: an instance of the
taxonomy, a raw `AxiosError`, or some other generic `Error` identified by
its message. -/
inductive ErrorModel where
  | taxonomy (e : ClassifiedError)
  | axios (e : AxiosErrorModel)
  | generic (message : String)

/-- Whether `s` contains `pat` as a substring (JS `String.includes`, for
non-empty patterns). -/
def strIncludes (s pat : String) : Bool :=
  (s.splitOn pat).length > 1

/-- Truthiness of an optional value (absent is falsy, a present value
uses JS truthiness). -/
def optTruthy : Option JsonVal → Bool
  | none => false
  | some v => v.truthy

/-- JavaScript `a || b` on optional values. -/
def jsOrVal (a b : Option JsonVal) : Option JsonVal :=
  if optTruthy a then a else b

/-- `'hostname'` of `new URL(url)`: the authority component of the URL,
with any userinfo and port stripped (enough for the message produced in
the `ENOTFOUND` branch). -/
def urlHostname (url : String) : String :=
  let afterScheme := match url.splitOn "://" with
    | _ :: rest :: _ => rest
    | _ => url
  let authority := match afterScheme.splitOn "/" with
    | a :: _ => a
    | [] => ""
  let hostPort := match authority.splitOn "@" with
    | [a] => a
    | _ :: rest => String.intercalate "@" rest
    | [] => ""
  match hostPort.splitOn ":" with
  | h :: _ => h
  | [] => ""

/-- The taxonomy classes singled out by the pass-through `instanceof`
chain at the top of `handleError`. -/
def isPassThroughError : ClassifiedError → Bool
  | .RateLimitError _ => true
  | .CancellationError _ => true
  | .TimeoutError _ => true
  | .ValidationError _ => true
  | _ => false

/-- The message carried by a taxonomy error. -/
def ClassifiedError.message : ClassifiedError → String
  | .NetworkError m => m
  | .TimeoutError m => m
  | .RateLimitError m => m
  | .ValidationError m => m
  | .ClientError m _ => m
  | .ServerError m _ => m
  | .HttpError m _ => m
  | .CancellationError m => m

/-- The branch of `handleError` for an `AxiosError` (lines 537–633 of
`src/core/RobustAxiosClient.ts`): network-level failures are mapped by
code, HTTP responses by status. -/
def classifyAxiosError (e : AxiosErrorModel) : ClassifiedError :=
  match e.response with
  | none =>
      if e.code = some "ECONNABORTED" then
        .TimeoutError ("Request timed out after " ++
          (match e.configTimeout with
           | some t => if t ≠ 0 then toString t else "unknown"
           | none => "unknown") ++ "ms")
      else if e.code = some "ETIMEDOUT" then
        .TimeoutError "Connection timed out while waiting for response"
      else if e.code = some "ECONNREFUSED" then
        .NetworkError ("Connection refused to " ++
          (match e.configUrl with
           | some u => jsOrString u "unknown endpoint"
           | none => "unknown endpoint"))
      else if e.code = some "ENOTFOUND" then
        .NetworkError ("Host not found: " ++
          (match e.configUrl with
           | some u => urlHostname u
           | none => "unknown host"))
      else if e.code = some "CERT_HAS_EXPIRED" then
        .NetworkError "SSL certificate has expired"
      else if strIncludes e.message "Network Error" then
        .NetworkError "Network connectivity issue detected"
      else
        .NetworkError ("Network error occurred: " ++ e.message)
  | some r =>
      let status := r.status
      if 400 ≤ status ∧ status < 500 then
        if status = 429 then
          match r.retryAfterHeader with
          | some h =>
              if h ≠ "" then
                .RateLimitError ("Rate limit exceeded. Retry after " ++ h ++ " seconds")
              else
                .RateLimitError "Rate limit exceeded"
          | none => .RateLimitError "Rate limit exceeded"
        else if status = 422 then
          match jsOrVal r.dataErrors r.dataDetails with
          | some details =>
              if details.truthy then
                .ValidationError ("Validation failed: " ++ jsonStringify details)
              else
                .ValidationError e.message
          | none => .ValidationError e.message
        else if status = 401 then
          .ClientError "Authentication required" status
        else if status = 403 then
          .ClientError "Permission denied" status
        else if status = 404 then
          .ClientError ("Resource not found: " ++
            (match e.configUrl with
             | some u => jsOrString u "unknown"
             | none => "unknown")) status
        else
          .ClientError (jsOrString e.message ("Client error (" ++ toString status ++ ")")) status
      else if 500 ≤ status then
        .ServerError (jsOrString e.message ("Server error (" ++ toString status ++ ")")) status
      else
        .HttpError e.message status

/-- The keyword fallback at the bottom of `handleError` for a generic
`Error` carrying `msg` (the unmodified error `orig` is returned when no
keyword matches). -/
def classifyGenericError (msg : String) (orig : ErrorModel) : ErrorModel :=
  if strIncludes msg "timeout" then
    .taxonomy (.TimeoutError ("Operation timed out: " ++ msg))
  else if strIncludes msg "network" ∨ strIncludes msg "connection" then
    .taxonomy (.NetworkError ("Network issue: " ++ msg))
  else
    orig

/-- `handleError`: an optional custom handler runs first (its result is
used only when it returns an `Error`, modelled by `some`); specific
taxonomy instances pass through; `AxiosError`s are classified by
`classifyAxiosError`; everything else falls back to the keyword
heuristics. -/
def handleError (customErrorHandler : Option (ErrorModel → Option ErrorModel))
    (error : ErrorModel) : ErrorModel :=
  let processedError := match customErrorHandler with
    | some handler =>
        match handler error with
        | some result => result
        | none => error
    | none => error
  match processedError with
  | .taxonomy t =>
      if isPassThroughError t then .taxonomy t
      else classifyGenericError t.message processedError
  | .axios a => .taxonomy (classifyAxiosError a)
  | .generic m => classifyGenericError m processedError

/-! ## Retry configuration, contexts and the retry decision -/

/-- The `backoffStrategy` union type
(`'exponential' | 'linear' | 'fibonacci' | 'custom'`). -/
inductive BackoffStrategy where
  | exponential
  | linear
  | fibonacci
  | custom
deriving DecidableEq, Repr

/-- A per-category settings override (`Partial<RetryConfig>`), restricted
to the fields the engine consults through `getCategorySettings`. -/
structure CategorySettings where
  maxRetries : Option Nat
  retryCondition : Option (AxiosErrorModel → Option Bool)
  backoffStrategy : Option BackoffStrategy
  customBackoff : Option (Nat → AxiosErrorModel → Int)

/-- One entry of `requestCategories`: a matcher predicate plus an
optional settings override. -/
structure CategoryConfig where
  matcher : RequestConfig → Bool
  settings : Option CategorySettings

/-- The resolved `Required<RetryConfig>` of the client, restricted to the
fields the embedded paths read.  A `retryCondition` predicate returns
`none` when the underlying JS predicate throws (or rejects). -/
structure RetryConfigModel where
  maxRetries : Nat
  retryCondition : AxiosErrorModel → Option Bool
  backoffStrategy : BackoffStrategy
  customBackoff : Nat → AxiosErrorModel → Int
  requestCategories : List (String × CategoryConfig)

/-- One recorded attempt of a retry context. -/
structure Attempt where
  timestamp : Nat
  error : AxiosErrorModel
  duration : Nat

/-- The `RetryContext` stored in the context cache. -/
structure RetryContext where
  retryCount : Nat
  startTime : Nat
  attempts : List Attempt
  requestConfig : RequestConfig
  category : Option String

/-- `determineRequestCategory`: the first configured category whose
matcher accepts the config (declaration order). -/
def determineRequestCategory (cfg : RetryConfigModel) (config : RequestConfig) :
    Option String :=
  match cfg.requestCategories.find? (fun p => p.2.matcher config) with
  | some p => some p.1
  | none => none

/-- `getCategorySettings`: the settings override of the context's
category, when both exist. -/
def getCategorySettings (cfg : RetryConfigModel) (category : Option String) :
    Option CategorySettings :=
  match category with
  | none => none
  | some c =>
      match cfg.requestCategories.find? (fun p => p.1 = c) with
      | some p => p.2.settings
      | none => none

/-- The effective max-retries used by `shouldRetry`: the category override
when present, otherwise the client-wide `maxRetries`. -/
def effectiveMaxRetries (cfg : RetryConfigModel) (category : Option String) : Nat :=
  match getCategorySettings cfg category with
  | some s => s.maxRetries.getD cfg.maxRetries
  | none => cfg.maxRetries

/-- The effective retry condition used by `shouldRetry`. -/
def effectiveRetryCondition (cfg : RetryConfigModel) (category : Option String) :
    AxiosErrorModel → Option Bool :=
  match getCategorySettings cfg category with
  | some s => s.retryCondition.getD cfg.retryCondition
  | none => cfg.retryCondition

/-- `shouldRetry(error, context)`: `false` once `retryCount` has reached
the effective max-retries; otherwise the result of the effective retry
condition, with a throwing condition (`none`) treated as `false`. -/
def shouldRetry (cfg : RetryConfigModel) (error : AxiosErrorModel)
    (context : RetryContext) : Bool :=
  let maxRetries := effectiveMaxRetries cfg context.category
  let retryCondition := effectiveRetryCondition cfg context.category
  if context.retryCount ≥ maxRetries then
    false
  else
    match retryCondition error with
    | some b => b
    | none => false

/-- `calculateFibonacciDelay(n)`: iterative Fibonacci (`F(1) = F(2) = 1`)
scaled to milliseconds; the loop of the source becomes `fibLoop` counting
the remaining iterations. -/
def calculateFibonacciDelay (n : Nat) : Int :=
  if n = 0 then 0
  else if n = 1 then 1000
  else Int.ofNat (fibLoop (n - 1) 0 1 * 1000)
where
  /-- `fibLoop k prev current` runs the source's accumulation loop `k`
  more times and returns the final `current`. -/
  fibLoop : Nat → Nat → Nat → Nat
    | 0, _, current => current
    | k + 1, prev, current => fibLoop k current (prev + current)

/-- `calculateRetryDelay(context, error)`: dispatch on the effective
backoff strategy (category override first).  The `Retry-After` header of
the error is never consulted here. -/
def calculateRetryDelay (cfg : RetryConfigModel) (context : RetryContext)
    (error : AxiosErrorModel) : Int :=
  let categorySettings := getCategorySettings cfg context.category
  let backoffStrategy := match categorySettings with
    | some s => s.backoffStrategy.getD cfg.backoffStrategy
    | none => cfg.backoffStrategy
  let customBackoff := match categorySettings with
    | some s => s.customBackoff.getD cfg.customBackoff
    | none => cfg.customBackoff
  match backoffStrategy with
  | .exponential => Int.ofNat (2 ^ context.retryCount * 1000)
  | .linear => Int.ofNat (context.retryCount * 1000)
  | .fibonacci => calculateFibonacciDelay context.retryCount
  | .custom => customBackoff context.retryCount error

/-- Decimal value of a digit list (most significant first). -/
def digitsToNat (digits : List Char) : Nat :=
  digits.foldl (fun n ch => n * 10 + (ch.toNat - 48)) 0

/-- The leading-integer parse of JavaScript's `parseInt(s, 10)` (`none`
models `NaN`). -/
def jsParseInt (s : String) : Option Int :=
  let trimmed := s.data.dropWhile fun ch => ch = ' '
  let (sign, digitsPart) :=
    match trimmed with
    | '-' :: rest => ((-1 : Int), rest)
    | '+' :: rest => ((1 : Int), rest)
    | l => ((1 : Int), l)
  let digits := digitsPart.takeWhile fun ch => '0' ≤ ch ∧ ch ≤ '9'
  if digits = [] then none
  else some (sign * Int.ofNat (digitsToNat digits))

/-- The `retryDelay` function of `DEFAULT_RETRY_CONFIG`
(`src/constants.ts`): honor the `Retry-After` header on a 429 response,
otherwise exponential backoff.  (`none` models a `NaN` result from an
unparseable header.)  This function is defined by the repository but is
never invoked by `RobustAxiosClient`. -/
def defaultRetryDelay (retryCount : Nat) (error : AxiosErrorModel) : Option Int :=
  match error.response with
  | some r =>
      if r.status = 429 then
        match r.retryAfterHeader with
        | some h =>
            if h ≠ "" then (jsParseInt h).map (· * 1000)
            else some (Int.ofNat (2 ^ retryCount * 1000))
        | none => some (Int.ofNat (2 ^ retryCount * 1000))
      else some (Int.ofNat (2 ^ retryCount * 1000))
  | none => some (Int.ofNat (2 ^ retryCount * 1000))

/-- The `retryCondition` of `DEFAULT_RETRY_CONFIG`: retry when no
response was received, on 5xx, on 429, or on a client-side timeout
(`ECONNABORTED`). -/
def defaultRetryCondition (error : AxiosErrorModel) : Option Bool :=
  some (error.response.isNone ||
    (match error.response with
     | some r => decide (r.status ≥ 500) || decide (r.status = 429)
     | none => false) ||
    decide (error.code = some "ECONNABORTED"))

/-- `DEFAULT_RETRY_CONFIG` restricted to the embedded fields
(`maxRetries: 3`, default condition, exponential backoff, linear custom
backoff, no categories). -/
def defaultRetryConfig : RetryConfigModel :=
  { maxRetries := 3
    retryCondition := defaultRetryCondition
    backoffStrategy := .exponential
    customBackoff := fun retryCount _ => Int.ofNat (retryCount * 1000)
    requestCategories := [] }

/-- The effect of `performRetry` on the retry context: `retryCount` is
incremented (the delay wait, timeout recalculation and re-issue do not
touch the context). -/
def performRetryContext (context : RetryContext) : RetryContext :=
  { context with retryCount := context.retryCount + 1 }

/-- The attempt-recording push of `handleErrorResponse`
(`context.attempts.push(...)`). -/
def recordAttempt (context : RetryContext) (error : AxiosErrorModel)
    (now : Nat) : RetryContext :=
  { context with
    attempts := context.attempts ++
      [{ timestamp := now, error := error, duration := now - context.startTime }] }

/-- The retry-context transition of `handleErrorResponse` for one failed
attempt: the attempt is recorded, then either `performRetry` bumps the
context (`some`) when `shouldRetry` allows, or the context is removed
(`none`). -/
def errorStep (cfg : RetryConfigModel) (error : AxiosErrorModel)
    (context : RetryContext) (now : Nat) : Option RetryContext :=
  let context := recordAttempt context error now
  if shouldRetry cfg error context then
    some (performRetryContext context)
  else
    none

/-- Iterate `errorStep` over a list of failed attempts, stopping when the
context is removed. -/
def runErrorSteps (cfg : RetryConfigModel) :
    List (AxiosErrorModel × Nat) → RetryContext → Option RetryContext
  | [], context => some context
  | (error, now) :: rest, context =>
      match errorStep cfg error context now with
      | some context => runErrorSteps cfg rest context
      | none => none

/-! ## Client façade: request interception and dry-run requests -/

/-- The configuration of a `RobustAxiosClient` restricted to the fields
the embedded request path reads. -/
structure ClientConfig where
  dryRun : Bool
  retryConfig : RetryConfigModel
  contextMaxAge : Nat

/-- The mutable resilience state owned by one client: the optional
circuit breaker, the optional rate limiter, and the retry-context
cache. -/
structure ClientState where
  circuitBreaker : Option CircuitBreaker
  rateLimiter : Option TokenBucketRateLimiter
  retryContexts : LRUCache String RetryContext

/-- A rejection raised by `handleRequestInterception` before the request
is sent. -/
inductive InterceptionError where
  | circuitOpen
  | rateLimited
deriving DecidableEq, Repr

/-- `cleanupRetryContexts()`: delete every context whose age exceeds
`contextMaxAge` (recency order of the survivors is untouched). -/
def cleanupRetryContexts (contexts : LRUCache String RetryContext)
    (now maxAge : Nat) : LRUCache String RetryContext :=
  { contexts with
    entries := contexts.entries.filter fun p => ¬ (now - p.2.startTime > maxAge) }

/-- `handleRequestInterception(config)`: consult the circuit breaker,
then the rate limiter, then store a fresh retry context under the
request's identity key and sweep aged contexts.  Returns the (unchanged)
config or the rejection, together with the updated state. -/
def handleRequestInterception (cl : ClientConfig) (config : RequestConfig)
    (now : Nat) (s : ClientState) :
    Except InterceptionError RequestConfig × ClientState :=
  let (breakerAllows, s) := match s.circuitBreaker with
    | some cb =>
        let (ok, cb) := cb.beforeRequest now
        (ok, { s with circuitBreaker := some cb })
    | none => (true, s)
  if ¬ breakerAllows then
    (.error .circuitOpen, s)
  else
    let (limiterAllows, s) := match s.rateLimiter with
      | some rl =>
          let (ok, rl) := rl.tryAcquire (now : ℚ)
          (ok, { s with rateLimiter := some rl })
      | none => (true, s)
    if ¬ limiterAllows then
      (.error .rateLimited, s)
    else
      let requestId := generateRequestId config
      let context : RetryContext :=
        { retryCount := 0
          startTime := now
          attempts := []
          requestConfig := config
          category := determineRequestCategory cl.retryConfig config }
      let s := { s with retryContexts := s.retryContexts.set requestId context }
      let s := { s with
        retryContexts := cleanupRetryContexts s.retryContexts now cl.contextMaxAge }
      (.ok config, s)

/-- The observable outcome of `request(config)` at the send boundary:
the canned dry-run response, a config issued to the transport, or a
pre-send rejection. -/
inductive RequestOutcome where
  | dryRunResponse (status : Nat)
  | issued (config : RequestConfig)
  | rejected (e : InterceptionError)

/-- `request(config)`: in dry-run mode, resolve immediately with the
canned status-200 response, before the interceptor pipeline runs;
otherwise run the request interception and hand the config to the
transport. -/
def request (cl : ClientConfig) (config : RequestConfig) (now : Nat)
    (s : ClientState) : RequestOutcome × ClientState :=
  if cl.dryRun then
    (.dryRunResponse 200, s)
  else
    match handleRequestInterception cl config now s with
    | (.ok config, s) => (.issued config, s)
    | (.error e, s) => (.rejected e, s)

/-! ## Concrete sample values (used to instantiate witnesses) -/

/-- A simple GET request configuration. -/
def sampleRequestConfig : RequestConfig :=
  { method := some "GET", baseURL := none, url := some "/a",
    params := none, data := none, timeout := none, headers := [] }

/-- A 503 response failure. -/
def sampleError503 : AxiosErrorModel :=
  { message := "boom", code := none,
    response := some { status := 503, retryAfterHeader := none,
                       dataErrors := none, dataDetails := none },
    configUrl := none, configTimeout := none }

/-- A fresh retry context for `sampleRequestConfig`. -/
def sampleFreshContext : RetryContext :=
  { retryCount := 0, startTime := 0, attempts := [],
    requestConfig := sampleRequestConfig, category := none }

/-- A 429 response failure carrying `Retry-After: 30`. -/
def sampleError429RetryAfter30 : AxiosErrorModel :=
  { message := "Request failed with status code 429", code := none,
    response := some { status := 429, retryAfterHeader := some "30",
                       dataErrors := none, dataDetails := none },
    configUrl := some "/a", configTimeout := none }

/-! ## Shared lemmas -/

/-- With no categories configured, category settings never resolve. -/
theorem getCategorySettings_eq_none (cfg : RetryConfigModel)
    (h : cfg.requestCategories = []) (category : Option String) :
    getCategorySettings cfg category = none := by
  cases category <;> simp [getCategorySettings, h]

end RobustAxios

namespace RobustAxios

/-! ## Claim theorems -/

/-- C8: for retryCount 1..5 the fibonacci backoff strategy yields exactly
[1000, 1000, 2000, 3000, 5000] ms and the exponential strategy yields
exactly [2000, 4000, 8000, 16000, 32000] ms, for every error and context
(under the default, category-free configuration). -/
theorem backoff_delays_fibonacci_exponential
    (e : AxiosErrorModel) (ctx : RetryContext) :
    ((List.range 5).map fun i =>
        calculateRetryDelay { defaultRetryConfig with backoffStrategy := .fibonacci }
          { ctx with retryCount := i + 1 } e) = [1000, 1000, 2000, 3000, 5000] ∧
    ((List.range 5).map fun i =>
        calculateRetryDelay { defaultRetryConfig with backoffStrategy := .exponential }
          { ctx with retryCount := i + 1 } e) = [2000, 4000, 8000, 16000, 32000] := by
  have h1 := getCategorySettings_eq_none
    { defaultRetryConfig with backoffStrategy := .fibonacci } rfl ctx.category
  have h2 := getCategorySettings_eq_none
    { defaultRetryConfig with backoffStrategy := .exponential } rfl ctx.category
  constructor <;>
    simp [List.range_succ, calculateRetryDelay, h1, h2,
      calculateFibonacciDelay, calculateFibonacciDelay.fibLoop]

/-- C4: every `tryAcquire` first refills by `elapsed * (maxRequests /
windowMs)` capped at `maxRequests`, then consumes exactly one token and
returns `true` when at least one token is available, else returns `false`
leaving the (refilled) count unchanged; and with `maxRequests = 2`, five
calls at the construction instant yield exactly two `true` results and
three `false` results. -/
theorem tokenBucket_tryAcquire_spec (b : TokenBucketRateLimiter) (now : ℚ) :
    ((b.refill now).tokens =
        min b.maxTokens (b.tokens + (now - b.lastRefill) * b.refillRate)) ∧
    (1 ≤ (b.refill now).tokens →
        b.tryAcquire now =
          (true, { b.refill now with tokens := (b.refill now).tokens - 1 })) ∧
    ((b.refill now).tokens < 1 →
        b.tryAcquire now = (false, b.refill now)) ∧
    (∀ t : ℚ,
        ((TokenBucketRateLimiter.create 2 1000 t).tryAcquireSeq [t, t, t, t, t]).1 =
          [true, true, false, false, false]) := by
  refine ⟨rfl, fun h => ?_, fun h => ?_, fun t => ?_⟩
  · simp only [TokenBucketRateLimiter.tryAcquire]
    rw [if_pos h]
  · simp only [TokenBucketRateLimiter.tryAcquire]
    rw [if_neg (by exact not_le.mpr h)]
  · simp [TokenBucketRateLimiter.tryAcquireSeq, TokenBucketRateLimiter.tryAcquire,
      TokenBucketRateLimiter.refill, TokenBucketRateLimiter.create]
    norm_num

/-- Witness for C4: the clauses of `tokenBucket_tryAcquire_spec` evaluated
on a concrete bucket with one token available at time 0. -/
theorem tokenBucket_tryAcquire_spec_witness :
    ((TokenBucketRateLimiter.create 2 1000 0).tryAcquire 0 =
        (true, { TokenBucketRateLimiter.create 2 1000 0 with tokens := 1 })) ∧
    ((TokenBucketRateLimiter.create 2 1000 0).tryAcquireSeq [0, 0, 0, 0, 0]).1 =
        [true, true, false, false, false] := by
  have h := tokenBucket_tryAcquire_spec (TokenBucketRateLimiter.create 2 1000 0) 0
  refine ⟨?_, h.2.2.2 0⟩
  have h2 := h.2.1 (by norm_num [TokenBucketRateLimiter.create, TokenBucketRateLimiter.refill])
  rw [h2]
  norm_num [TokenBucketRateLimiter.create, TokenBucketRateLimiter.refill]

/-- C6: below the effective max-retries, a retry-condition predicate that
throws on the error (modelled by `none`) makes `shouldRetry` return
`false` instead of propagating or retrying. -/
theorem shouldRetry_false_on_throwing_condition (cfg : RetryConfigModel)
    (error : AxiosErrorModel) (ctx : RetryContext)
    (hlt : ctx.retryCount < effectiveMaxRetries cfg ctx.category)
    (hthrow : effectiveRetryCondition cfg ctx.category error = none) :
    shouldRetry cfg error ctx = false := by
  simp only [shouldRetry, hthrow]
  rw [if_neg (by omega)]

/-- Witness for C6: a configuration whose retry condition always throws,
on a fresh context (`retryCount = 0 < 3`). -/
theorem shouldRetry_false_on_throwing_condition_witness :
    shouldRetry { defaultRetryConfig with retryCondition := fun _ => none }
      { message := "boom", code := none, response := none,
        configUrl := none, configTimeout := none }
      { retryCount := 0, startTime := 0, attempts := [],
        requestConfig :=
          { method := some "GET", baseURL := none, url := some "/a",
            params := none, data := none, timeout := none, headers := [] },
        category := none } = false :=
  shouldRetry_false_on_throwing_condition _ _ _
    (by simp [effectiveMaxRetries, getCategorySettings, defaultRetryConfig])
    (by simp [effectiveRetryCondition, getCategorySettings])

/-- C1: `shouldRetry` returns `false` whenever `retryCount` has reached
the effective max-retries for the context's category; the error-handling
step increments `retryCount` only after `shouldRetry` returned `true`
(and by exactly one); hence along any sequence of failed attempts a
context starting within the bound keeps `retryCount ≤` effective
max-retries. -/
theorem retryCount_never_exceeds_effective_max (cfg : RetryConfigModel)
    (error : AxiosErrorModel) (ctx : RetryContext) (now : Nat) :
    (effectiveMaxRetries cfg ctx.category ≤ ctx.retryCount →
        shouldRetry cfg error ctx = false) ∧
    (∀ ctx', errorStep cfg error ctx now = some ctx' →
        shouldRetry cfg error (recordAttempt ctx error now) = true ∧
        ctx' = performRetryContext (recordAttempt ctx error now)) ∧
    (∀ attempts ctx',
        ctx.retryCount ≤ effectiveMaxRetries cfg ctx.category →
        runErrorSteps cfg attempts ctx = some ctx' →
        ctx'.retryCount ≤ effectiveMaxRetries cfg ctx'.category) := by
  refine ⟨fun h => ?_, fun ctx' h => ?_, fun attempts => ?_⟩
  · simp only [shouldRetry]
    rw [if_pos h]
  · simp only [errorStep] at h
    by_cases hs : shouldRetry cfg error (recordAttempt ctx error now) = true
    · simp only [hs, if_true] at h
      exact ⟨hs, (Option.some.injEq _ _ ▸ h).symm⟩
    · simp only [eq_false_of_ne_true hs, if_false] at h
      simp at h
  · induction attempts generalizing ctx with
    | nil =>
        intro ctx' hle h
        simp only [runErrorSteps] at h
        cases Option.some.inj h
        exact hle
    | cons attempt rest ih =>
        intro ctx' hle h
        simp only [runErrorSteps] at h
        cases hstep : errorStep cfg attempt.1 ctx attempt.2 with
        | none => simp [hstep] at h
        | some ctx₁ =>
            rw [hstep] at h
            refine ih ctx₁ ctx' ?_ h
            simp only [errorStep] at hstep
            by_cases hs :
                shouldRetry cfg attempt.1 (recordAttempt ctx attempt.1 attempt.2) = true
            · simp only [hs, if_true, Option.some.injEq] at hstep
              have hlt : (recordAttempt ctx attempt.1 attempt.2).retryCount <
                  effectiveMaxRetries cfg
                    (recordAttempt ctx attempt.1 attempt.2).category := by
                by_contra hge
                push_neg at hge
                simp only [shouldRetry] at hs
                rw [if_pos hge] at hs
                exact absurd hs (by simp)
              simp only [recordAttempt] at hlt
              rw [← hstep]
              simp only [performRetryContext, recordAttempt]
              simpa using hlt
            · simp only [eq_false_of_ne_true hs, if_false] at hstep
              simp at hstep

/-- Witness for C1: the default configuration on a context that has
exhausted its three retries (`shouldRetry` is `false`), and a fresh
context run through one failing attempt. -/
theorem retryCount_never_exceeds_effective_max_witness :
    (shouldRetry defaultRetryConfig sampleError503
      { sampleFreshContext with retryCount := 3 } = false) ∧
    (∀ ctx',
        runErrorSteps defaultRetryConfig [(sampleError503, 7)] sampleFreshContext =
          some ctx' →
        ctx'.retryCount ≤ effectiveMaxRetries defaultRetryConfig ctx'.category) := by
  constructor
  · exact (retryCount_never_exceeds_effective_max defaultRetryConfig sampleError503
      { sampleFreshContext with retryCount := 3 } 0).1
      (by simp [effectiveMaxRetries, getCategorySettings, defaultRetryConfig,
        sampleFreshContext])
  · intro ctx' h
    exact (retryCount_never_exceeds_effective_max defaultRetryConfig sampleError503
        sampleFreshContext 0).2.2 [(sampleError503, 7)] ctx'
      (by simp [effectiveMaxRetries, getCategorySettings, defaultRetryConfig,
        sampleFreshContext]) h

/-- C2 counterexample: with `failureThreshold = 2`, trip the breaker
(2 failures), wait out the reset timeout into HALF_OPEN, record one trial
success (which resets the consecutive-failure counter), then record a
single trial failure: the breaker stays HALF_OPEN instead of reopening,
refuting "any single recordFailure call while HALF_OPEN transitions the
breaker back to OPEN regardless of preceding successes". -/
theorem recordFailure_halfOpen_not_always_reopen :
    (CircuitBreaker.applyOps
        (CircuitBreaker.create ⟨2, 100, 2⟩ 0)
        [.failure 0, .failure 0, .before 100, .success 100]).state =
      .HALF_OPEN ∧
    ((CircuitBreaker.applyOps
        (CircuitBreaker.create ⟨2, 100, 2⟩ 0)
        [.failure 0, .failure 0, .before 100, .success 100]).recordFailure 100).state ≠
      .OPEN := by
  decide

/-- C2 amended: `recordFailure` moves the breaker to OPEN exactly when
the incremented consecutive-failure counter reaches `failureThreshold`
(or the breaker already was OPEN); entering HALF_OPEN preserves the
failure counter, so the first trial failure after the breaker tripped —
with no intervening `recordSuccess` — does reopen the circuit. -/
theorem recordFailure_open_iff_threshold (cb : CircuitBreaker) (now : Nat) :
    ((cb.recordFailure now).state = .OPEN ↔
        cb.config.failureThreshold ≤ cb.failures + 1 ∨ cb.state = .OPEN) ∧
    ((cb.beforeRequest now).2.failures = cb.failures) ∧
    (∀ later, cb.state = .OPEN →
        cb.config.failureThreshold ≤ cb.failures →
        (cb.beforeRequest now).2.state = .HALF_OPEN →
        (((cb.beforeRequest now).2.recordFailure later).state = .OPEN)) := by
  refine ⟨?_, ?_, fun later hopen hge _ => ?_⟩
  · simp only [CircuitBreaker.recordFailure, CircuitBreaker.transitionTo]
    by_cases h : cb.config.failureThreshold ≤ cb.failures + 1
    · rw [if_pos h]
      simp [h]
    · rw [if_neg h]
      simp [h]
  · simp only [CircuitBreaker.beforeRequest]
    cases cb.state <;> simp [CircuitBreaker.transitionTo] <;> split <;> simp
  · simp only [CircuitBreaker.beforeRequest, hopen]
    split
    · simp only [CircuitBreaker.recordFailure, CircuitBreaker.transitionTo]
      rw [if_pos (by simpa using Nat.le_succ_of_le hge)]
    · simp only [CircuitBreaker.recordFailure, CircuitBreaker.transitionTo, hopen]
      rw [if_pos (by simpa using Nat.le_succ_of_le hge)]

/-- Witness for C2 (amended): a tripped breaker (threshold 2, failures 2)
whose reset timeout has elapsed moves to HALF_OPEN and reopens on the
first trial failure. -/
theorem recordFailure_open_iff_threshold_witness :
    (((CircuitBreaker.applyOps (CircuitBreaker.create ⟨2, 100, 2⟩ 0)
          [.failure 0, .failure 0]).beforeRequest 100).2.recordFailure 100).state =
      .OPEN := by
  refine (recordFailure_open_iff_threshold
      (CircuitBreaker.applyOps (CircuitBreaker.create ⟨2, 100, 2⟩ 0)
        [.failure 0, .failure 0]) 100).2.2 100 (by decide) (by decide) (by decide)

/-- C3: the delay actually computed before the first retry of a 429
response carrying `Retry-After: 30` under the default (exponential)
configuration is 2000 ms, not the 30000 ms the `Retry-After` override
requires — `calculateRetryDelay` dispatches only on the backoff strategy
and never consults the header, while the repository's own
`DEFAULT_RETRY_CONFIG.retryDelay` (which does implement the override,
returning 30000 ms here) is never invoked by the client. -/
theorem calculateRetryDelay_ignores_retry_after :
    calculateRetryDelay defaultRetryConfig
        { sampleFreshContext with retryCount := 1 } sampleError429RetryAfter30 = 2000 ∧
    defaultRetryDelay 1 sampleError429RetryAfter30 = some 30000 ∧
    (2000 : Int) ≠ 30000 := by
  refine ⟨?_, ?_, by decide⟩
  · simp [calculateRetryDelay, getCategorySettings, defaultRetryConfig,
      sampleFreshContext]
  · rfl

/-- C5: with no custom handler, an error carrying an HTTP response is
classified by status into exactly one taxonomy kind: 429 to
`RateLimitError` (naming the `Retry-After` seconds when the header is
present), 422 to `ValidationError` (embedding the structured validation
details when present), 401/403/404 to `ClientError` with a
status-specific message, every other 4xx to `ClientError`, every 5xx to
`ServerError`, and any other status to the generic `HttpError`.  (The
clauses partition all statuses, and `handleError` is a function, so each
input receives exactly one kind.) -/
theorem handleError_http_response_classification (a : AxiosErrorModel)
    (r : ResponseModel) (h : a.response = some r) :
    (r.status = 429 →
        handleError none (.axios a) = .taxonomy (.RateLimitError
          (match r.retryAfterHeader with
           | some hd =>
               if hd ≠ "" then "Rate limit exceeded. Retry after " ++ hd ++ " seconds"
               else "Rate limit exceeded"
           | none => "Rate limit exceeded"))) ∧
    (r.status = 422 →
        handleError none (.axios a) = .taxonomy (.ValidationError
          (match jsOrVal r.dataErrors r.dataDetails with
           | some details =>
               if details.truthy then "Validation failed: " ++ jsonStringify details
               else a.message
           | none => a.message))) ∧
    (r.status = 401 →
        handleError none (.axios a) =
          .taxonomy (.ClientError "Authentication required" 401)) ∧
    (r.status = 403 →
        handleError none (.axios a) =
          .taxonomy (.ClientError "Permission denied" 403)) ∧
    (r.status = 404 →
        handleError none (.axios a) = .taxonomy (.ClientError
          ("Resource not found: " ++
            (match a.configUrl with
             | some u => jsOrString u "unknown"
             | none => "unknown")) 404)) ∧
    (400 ≤ r.status → r.status < 500 →
        r.status ≠ 429 → r.status ≠ 422 → r.status ≠ 401 → r.status ≠ 403 →
        r.status ≠ 404 →
        handleError none (.axios a) = .taxonomy (.ClientError
          (jsOrString a.message ("Client error (" ++ toString r.status ++ ")"))
          r.status)) ∧
    (500 ≤ r.status →
        handleError none (.axios a) = .taxonomy (.ServerError
          (jsOrString a.message ("Server error (" ++ toString r.status ++ ")"))
          r.status)) ∧
    (r.status < 400 →
        handleError none (.axios a) = .taxonomy (.HttpError a.message r.status)) := by
  simp only [handleError, classifyAxiosError, h]
  refine ⟨fun h429 => ?_, fun h422 => ?_, fun h401 => ?_, fun h403 => ?_,
    fun h404 => ?_, fun hge hlt hn1 hn2 hn3 hn4 hn5 => ?_,
    fun h5xx => ?_, fun hlow => ?_⟩
  · simp only [h429]
    norm_num
    cases r.retryAfterHeader with
    | none => rfl
    | some hd => by_cases hhd : hd = "" <;> simp [hhd]
  · simp only [h422]
    norm_num
    cases jsOrVal r.dataErrors r.dataDetails with
    | none => rfl
    | some details => by_cases hd : details.truthy <;> simp [hd]
  · simp only [h401]
    norm_num
  · simp only [h403]
    norm_num
  · simp only [h404]
    norm_num
  · rw [if_pos ⟨hge, hlt⟩, if_neg hn1, if_neg hn2, if_neg hn3, if_neg hn4, if_neg hn5]
  · rw [if_neg (by omega), if_pos h5xx]
  · rw [if_neg (by omega), if_neg (by omega)]

/-- Witness for C5: a 404 failure for `/missing` classifies to the
status-specific `ClientError`. -/
theorem handleError_http_response_classification_witness :
    handleError none (.axios
      { message := "Request failed with status code 404", code := none,
        response := some { status := 404, retryAfterHeader := none,
                           dataErrors := none, dataDetails := none },
        configUrl := some "/missing", configTimeout := none }) =
      .taxonomy (.ClientError "Resource not found: /missing" 404) := by
  have h := (handleError_http_response_classification
    { message := "Request failed with status code 404", code := none,
      response := some { status := 404, retryAfterHeader := none,
                         dataErrors := none, dataDetails := none },
      configUrl := some "/missing", configTimeout := none }
    { status := 404, retryAfterHeader := none,
      dataErrors := none, dataDetails := none } rfl).2.2.2.2.1 rfl
  simpa [jsOrString] using h

/-- Removing the entries of a present key strictly shrinks the list. -/
theorem length_filter_ne_lt {K V : Type} [DecidableEq K]
    (l : List (K × V)) (k : K) (h : (l.any fun p => p.1 = k) = true) :
    (l.filter fun q => q.1 ≠ k).length < l.length := by
  induction l with
  | nil => simp at h
  | cons a l ih =>
      by_cases ha : a.1 = k
      · have heq : (a :: l).filter (fun q => q.1 ≠ k) = l.filter fun q => q.1 ≠ k := by
          simp [List.filter_cons, ha]
        rw [heq, List.length_cons]
        exact Nat.lt_succ_of_le (List.length_filter_le _ l)
      · have h' : (l.any fun p => p.1 = k) = true := by
          simpa [List.any_cons, ha] using h
        have heq : (a :: l).filter (fun q => q.1 ≠ k) =
            a :: l.filter fun q => q.1 ≠ k := by
          simp [List.filter_cons, ha]
        rw [heq, List.length_cons, List.length_cons]
        exact Nat.succ_lt_succ (ih h')

/-- One cache operation never grows the entry count beyond a positive
capacity, and never changes the capacity. -/
theorem lru_applyOp_size_le {K V : Type} [DecidableEq K]
    (c : LRUCache K V) (op : LRUCache.Op K V)
    (hcap : 1 ≤ c.capacity) (h : c.size ≤ c.capacity) :
    (c.applyOp op).size ≤ c.capacity ∧ (c.applyOp op).capacity = c.capacity := by
  cases op with
  | get k =>
      refine ⟨?_, ?_⟩
      · simp only [LRUCache.applyOp, LRUCache.get]
        cases hf : c.entries.find? (fun p => p.1 = k) with
        | none => exact h
        | some p =>
            have hmem := List.mem_of_find?_eq_some hf
            have hany : (c.entries.any fun p => p.1 = k) = true := by
              rw [List.any_eq_true]
              exact ⟨p, hmem, by simpa using List.find?_some hf⟩
            have := length_filter_ne_lt c.entries k hany
            simp only [LRUCache.size, List.length_cons]
            calc (c.entries.filter fun q => q.1 ≠ k).length + 1
                ≤ c.entries.length := this
              _ ≤ c.capacity := h
      · simp only [LRUCache.applyOp, LRUCache.get]
        cases c.entries.find? (fun p => p.1 = k) <;> rfl
  | set k v =>
      have hlen : c.entries.length ≤ c.capacity := h
      refine ⟨?_, ?_⟩
      · simp only [LRUCache.applyOp, LRUCache.set]
        by_cases hc : c.containsKey k
        · rw [if_pos hc]
          have := length_filter_ne_lt c.entries k hc
          simp only [LRUCache.size, List.length_cons]
          calc (c.entries.filter fun q => q.1 ≠ k).length + 1
              ≤ c.entries.length := this
            _ ≤ c.capacity := hlen
        · rw [if_neg hc]
          by_cases hfull : c.entries.length ≥ c.capacity
          · rw [if_pos hfull]
            simp only [LRUCache.size, List.length_cons, List.length_dropLast]
            omega
          · rw [if_neg hfull]
            simp only [LRUCache.size, List.length_cons]
            omega
      · simp only [LRUCache.applyOp, LRUCache.set]
        by_cases hc : c.containsKey k
        · rw [if_pos hc]
        · rw [if_neg hc]
  | delete k =>
      refine ⟨?_, rfl⟩
      simp only [LRUCache.applyOp, LRUCache.delete, LRUCache.size]
      calc (c.entries.filter fun q => q.1 ≠ k).length
          ≤ c.entries.length := List.length_filter_le _ _
        _ ≤ c.capacity := h

/-- C7 counterexample: the constructor clamps the capacity to at least 1
(`Math.max(1, capacity)`), so a cache configured with capacity 0 still
stores one entry after a single `set`, exceeding the configured
capacity. -/
theorem lru_configured_capacity_zero_exceeded :
    (LRUCache.applyOps (LRUCache.create String Nat 0) [.set "a" 1]).size = 1 ∧
    ¬ (LRUCache.applyOps (LRUCache.create String Nat 0) [.set "a" 1]).size ≤ 0 := by
  decide

/-- C7 amended: after any sequence of get/set/delete operations the entry
count never exceeds `max 1 c` for configured capacity `c` (the
constructor's clamp); and a `set` on a new key when the cache is full
evicts exactly the least-recently-used (back) entry before inserting at
the front. -/
theorem lru_size_bounded_and_evicts_lru {K V : Type} [DecidableEq K] :
    (∀ (c₀ : Nat) (ops : List (LRUCache.Op K V)),
        (LRUCache.applyOps (LRUCache.create K V c₀) ops).size ≤ max 1 c₀) ∧
    (∀ (c : LRUCache K V) (k : K) (v : V),
        c.containsKey k = false → c.size = c.capacity →
        (c.set k v).entries = (k, v) :: c.entries.dropLast) := by
  constructor
  · intro c₀ ops
    suffices h : ∀ (c : LRUCache K V), 1 ≤ c.capacity → c.size ≤ c.capacity →
        (LRUCache.applyOps c ops).size ≤ c.capacity by
      exact h (LRUCache.create K V c₀) (le_max_left 1 c₀) (by simp [LRUCache.create, LRUCache.size])
    induction ops with
    | nil => intro c _ h; exact h
    | cons op rest ih =>
        intro c hcap h
        have step := lru_applyOp_size_le c op hcap h
        have := ih (c.applyOp op) (step.2 ▸ hcap) (step.2 ▸ step.1)
        simpa [LRUCache.applyOps, step.2] using this
  · intro c k v hnk hfull
    have hfull' : c.entries.length ≥ c.capacity := by
      have : c.entries.length = c.capacity := hfull
      omega
    simp only [LRUCache.set, hnk, Bool.false_eq_true, if_false]
    rw [if_pos hfull']

/-- Witness for C7 (amended): three inserts into a capacity-2 cache stay
within the bound, and a `set` of a new key on a full cache drops exactly
the least-recently-used entry. -/
theorem lru_size_bounded_and_evicts_lru_witness :
    (LRUCache.applyOps (LRUCache.create String Nat 2)
        [.set "a" 1, .set "b" 2, .set "c" 3]).size ≤ max 1 2 ∧
    (LRUCache.set { capacity := 2, entries := [("b", 2), ("a", 1)] } "c" 3).entries =
      [("c", 3), ("b", 2)] := by
  constructor
  · exact (lru_size_bounded_and_evicts_lru (K := String) (V := Nat)).1 2
      [.set "a" 1, .set "b" 2, .set "c" 3]
  · have h := (lru_size_bounded_and_evicts_lru (K := String) (V := Nat)).2
      { capacity := 2, entries := [("b", 2), ("a", 1)] } "c" 3 (by decide) (by decide)
    simpa using h

/-- C9 counterexample: the legacy `robust-axios.ts` `generateRequestId`
mixes the current timestamp (and a random component) into the key, so the
same configuration keyed at two different times — even with the same
random draw — yields two different keys. -/
theorem legacyGenerateRequestId_time_dependent :
    legacyGenerateRequestId
      { method := some "GET", baseURL := some "https://api.example.com",
        url := some "/users", params := none, data := none,
        timeout := none, headers := [] } 0 "abc123" ≠
    legacyGenerateRequestId
      { method := some "GET", baseURL := some "https://api.example.com",
        url := some "/users", params := none, data := none,
        timeout := none, headers := [] } 1 "abc123" := by
  decide

/-- C9 amended: the core client's `generateRequestId` is a deterministic
function of the configuration's method, base URL, path, query params and
body alone — equal components give equal keys across any two calls (in
particular independent of call time, and of the remaining configuration
fields such as headers or timeout).  The legacy `robust-axios.ts`
implementation does not have this property (see the counterexample). -/
theorem generateRequestId_deterministic (c₁ c₂ : RequestConfig)
    (hm : c₁.method = c₂.method) (hb : c₁.baseURL = c₂.baseURL)
    (hu : c₁.url = c₂.url) (hp : c₁.params = c₂.params)
    (hd : c₁.data = c₂.data) :
    generateRequestId c₁ = generateRequestId c₂ := by
  simp only [generateRequestId, hm, hb, hu, hp, hd]

/-- Witness for C9 (amended): two configurations that agree on method,
base URL, path, params and body but differ in headers and timeout produce
the same key. -/
theorem generateRequestId_deterministic_witness :
    generateRequestId
      { method := some "GET", baseURL := some "https://api.example.com",
        url := some "/users", params := some [("q", .jstr "x")], data := none,
        timeout := some 1000, headers := [("Accept", "application/json")] } =
    generateRequestId
      { method := some "GET", baseURL := some "https://api.example.com",
        url := some "/users", params := some [("q", .jstr "x")], data := none,
        timeout := none, headers := [] } :=
  generateRequestId_deterministic _ _ rfl rfl rfl rfl rfl

/-- C10: with `dryRun` enabled, `request` resolves with the canned
status-200 response before `handleRequestInterception` runs, and the
whole resilience state — retry-context cache, rate limiter and circuit
breaker — is left untouched. -/
theorem request_dryRun_no_side_effects (cl : ClientConfig)
    (config : RequestConfig) (now : Nat) (s : ClientState)
    (h : cl.dryRun = true) :
    request cl config now s = (.dryRunResponse 200, s) ∧
    (request cl config now s).2.retryContexts = s.retryContexts ∧
    (request cl config now s).2.rateLimiter = s.rateLimiter ∧
    (request cl config now s).2.circuitBreaker = s.circuitBreaker := by
  have hreq : request cl config now s = (.dryRunResponse 200, s) := by
    simp [request, h]
  exact ⟨hreq, by rw [hreq], by rw [hreq], by rw [hreq]⟩

/-- Witness for C10: a dry-run client with an active breaker, limiter and
a cached context leaves all of them untouched and returns the canned
response. -/
theorem request_dryRun_no_side_effects_witness :
    request
      { dryRun := true, retryConfig := defaultRetryConfig, contextMaxAge := 3600000 }
      sampleRequestConfig 5
      { circuitBreaker := some (CircuitBreaker.create ⟨5, 60000, 3⟩ 0),
        rateLimiter := some (TokenBucketRateLimiter.create 2 1000 0),
        retryContexts :=
          (LRUCache.create String RetryContext 100).set "k" sampleFreshContext } =
    (.dryRunResponse 200,
      { circuitBreaker := some (CircuitBreaker.create ⟨5, 60000, 3⟩ 0),
        rateLimiter := some (TokenBucketRateLimiter.create 2 1000 0),
        retryContexts :=
          (LRUCache.create String RetryContext 100).set "k" sampleFreshContext }) :=
  (request_dryRun_no_side_effects
    { dryRun := true, retryConfig := defaultRetryConfig, contextMaxAge := 3600000 }
    sampleRequestConfig 5
    { circuitBreaker := some (CircuitBreaker.create ⟨5, 60000, 3⟩ 0),
      rateLimiter := some (TokenBucketRateLimiter.create 2 1000 0),
      retryContexts :=
        (LRUCache.create String RetryContext 100).set "k" sampleFreshContext }
    rfl).1

end RobustAxios
